import Mathlib

/-!
Verification development for the rocbot retrieval-ranking and
answer-orchestration engine.

Text is modelled as `List Char` (Python `str`: `len` counts code points,
so `List.length` agrees).  Scores are modelled as `ℚ` (the only penalty
multiplication the code can reach is by `0.5`, which is exact in both
binary floating point and `ℚ`, so orderings and equalities agree with the
Python floats).  The external generation service (`ollama.chat`) is
modelled as oracle data: the outcome each call would produce.
-/

namespace Rocbot

/-- Python `str.lower()` restricted to ASCII, which is all the fixed
phrase/keyword material uses. -/
def lower (s : List Char) : List Char := s.map Char.toLower

/-- Python `sub in s` substring containment. (`[] ⊆ s` is `true`,
matching Python's `"" in s`.) -/
def containsSub (sub s : List Char) : Bool :=
  s.tails.any (fun t => sub.isPrefixOf t)

/-- Fuel-driven scan for `str.count`: non-overlapping occurrences,
advancing past each match.  `fuel` is initialised to `s.length`; the
scan consumes at least one character per step, so the fuel never runs
out early. -/
def countOccGo (sub : List Char) : List Char → Nat → Nat
  | _, 0 => 0
  | s, Nat.succ fuel =>
    if sub.isPrefixOf s then 1 + countOccGo sub (s.drop sub.length) fuel
    else
      match s with
      | [] => 0
      | _ :: t => countOccGo sub t fuel

/-- Python `s.count(sub)`: number of non-overlapping occurrences of
`sub` in `s`, scanning left to right (`s.count("") = len(s)+1`). -/
def countOcc (sub s : List Char) : Nat :=
  if sub.isEmpty then s.length + 1 else countOccGo sub s s.length

/-- Python `str.split()`: split on runs of whitespace, dropping empty
pieces.  `acc` holds the current word reversed. -/
def splitWsAux : List Char → List Char → List (List Char)
  | [], acc => if acc.isEmpty then [] else [acc.reverse]
  | c :: rest, acc =>
    if c.isWhitespace then
      if acc.isEmpty then splitWsAux rest []
      else acc.reverse :: splitWsAux rest []
    else splitWsAux rest (c :: acc)

def splitWs (s : List Char) : List (List Char) := splitWsAux s []

/-- `string.punctuation` from CPython. -/
def punctChars : List Char :=
  ['!', '"', '#', '$', '%', '&', '\'', '(', ')', '*', '+', ',', '-', '.',
   '/', ':', ';', '<', '=', '>', '?', '@', '[', '\\', ']', '^', '_',
   '\x60', '\x7b', '|', '\x7d', '~']

/-- Python `word.strip(chars)`: drop leading and trailing characters
belonging to `bad`. -/
def stripChars (bad : List Char) (s : List Char) : List Char :=
  ((s.dropWhile (fun c => bad.contains c)).reverse.dropWhile
    (fun c => bad.contains c)).reverse

/-- Python `question.strip()` (whitespace strip, both ends). -/
def stripWs (s : List Char) : List Char :=
  ((s.dropWhile Char.isWhitespace).reverse.dropWhile Char.isWhitespace).reverse

/-- The stop-word set of `DatabaseManager.search_content`. -/
def stopWords : List (List Char) :=
  ["who".toList, "is".toList, "the".toList, "what".toList, "are".toList,
   "there".toList, "any".toList, "how".toList, "do".toList, "i".toList,
   "in".toList, "of".toList, "to".toList, "a".toList, "an".toList,
   "this".toList, "that".toList, "or".toList, "and".toList]

/-- Keyword extraction of `DatabaseManager.search_content`: lower-case
the query, split on whitespace, strip punctuation, drop stop words and
tokens of length ≤ 2; if nothing is left use the whole lower-cased
query. -/
def extractKeywords (query : List Char) : List (List Char) :=
  let ql := lower query
  let cleaned := (splitWs ql).map (stripChars punctChars)
  let kws := cleaned.filter
    (fun w => !(stopWords.contains w) && decide (2 < w.length))
  if kws.isEmpty then [ql] else kws

end Rocbot

namespace Rocbot

/-- A stored document as `search_content` reads it
(`ContentItem` columns the ranking logic touches). -/
structure ContentItem where
  title : List Char
  description : List Char
  content_full : List Char
  url : List Char
  source : List Char
  category : List Char
deriving DecidableEq, Repr

/-- One keyword's SQL filter: `ilike '%kw%'` over title, full text and
description (case-insensitive substring; keywords are already
lower-cased). -/
def matchesKeyword (kw : List Char) (item : ContentItem) : Bool :=
  containsSub kw (lower item.title) ||
  containsSub kw (lower item.content_full) ||
  containsSub kw (lower item.description)

/-- Candidate union of `search_content`: for each keyword in order, walk
the store in iteration order and append matches not already collected. -/
def gatherCandidates (docs : List ContentItem) (kws : List (List Char)) :
    List ContentItem :=
  kws.foldl
    (fun acc kw =>
      docs.foldl
        (fun acc item =>
          if matchesKeyword kw item && !(decide (item ∈ acc)) then
            acc ++ [item]
          else acc)
        acc)
    []

/-- One iteration of the keyword loop in `relevance_score`: `+100` for
a title hit, `+50` when the keyword occurs with a literal space on each
side in the body (`f" {keyword} "`), plus the raw non-overlapping
occurrence count in the body. -/
def scoreStep (item : ContentItem) (sc : Nat) (kw : List Char) : Nat :=
  let sc := if containsSub kw (lower item.title) then sc + 100 else sc
  let sc :=
    if containsSub (' ' :: (kw ++ [' '])) (lower item.content_full) then
      sc + 50
    else sc
  sc + countOcc kw (lower item.content_full)

/-- The keyword-accumulation part of `relevance_score` (before the
length penalty). -/
def baseScore (kws : List (List Char)) (item : ContentItem) : Nat :=
  kws.foldl (scoreStep item) 0

/-- `relevance_score` of `search_content`, length penalty included.  The
`else if content_length > 10000` branch mirrors the source's
`elif content_length > 10000` and is unreachable, exactly as in the
source. -/
def relevance_score (kws : List (List Char)) (item : ContentItem) : ℚ :=
  let score : ℚ := (baseScore kws item : ℚ)
  let content_length := item.content_full.length
  if content_length > 5000 then score * (1 / 2)
  else if content_length > 10000 then score * (3 / 10)
  else score

/-- Stable descending insertion for `sortDesc`: `x` goes in front of the
first element whose key is `≤` its own, so among equal keys the element
inserted later (which came earlier in the original list) ends up first. -/
def orderedInsertD (f : ContentItem → ℚ) (x : ContentItem) :
    List ContentItem → List ContentItem
  | [] => [x]
  | y :: ys =>
    if f y ≤ f x then x :: y :: ys else y :: orderedInsertD f x ys

/-- Stable sort by descending key: extensionally the Python
`list.sort(key=f, reverse=True)` (Timsort is stable and `reverse=True`
does not reorder ties). -/
def sortDesc (f : ContentItem → ℚ) : List ContentItem → List ContentItem
  | [] => []
  | x :: xs => orderedInsertD f x (sortDesc f xs)

/-- `DatabaseManager.search_content`: extract keywords, union the
per-keyword matches, stable-sort by descending relevance, truncate. -/
def search_content (docs : List ContentItem) (query : List Char)
    (limit : Nat) : List ContentItem :=
  let kws := extractKeywords query
  let results := gatherCandidates docs kws
  (sortDesc (relevance_score kws) results).take limit

namespace SortLemmas

variable (f : ContentItem → ℚ)

theorem mem_orderedInsertD {x : ContentItem} :
    ∀ {l : List ContentItem} {y : ContentItem},
      y ∈ orderedInsertD f x l ↔ y = x ∨ y ∈ l := by
  intro l
  induction l with
  | nil => intro y; simp [orderedInsertD]
  | cons a t ih =>
    intro y
    by_cases h : f a ≤ f x
    · simp [orderedInsertD, h]
    · simp only [orderedInsertD, if_neg h, List.mem_cons, ih]
      tauto

theorem pairwise_orderedInsertD {x : ContentItem} :
    ∀ {l : List ContentItem},
      l.Pairwise (fun a b => f b ≤ f a) →
      (orderedInsertD f x l).Pairwise (fun a b => f b ≤ f a) := by
  intro l
  induction l with
  | nil => intro _; simp [orderedInsertD]
  | cons a t ih =>
    intro hl
    rcases List.pairwise_cons.mp hl with ⟨ha, ht⟩
    by_cases h : f a ≤ f x
    · rw [orderedInsertD, if_pos h]
      refine List.pairwise_cons.mpr ⟨?_, hl⟩
      intro z hz
      rcases List.mem_cons.mp hz with rfl | hz
      · exact h
      · exact le_trans (ha z hz) h
    · rw [orderedInsertD, if_neg h]
      refine List.pairwise_cons.mpr ⟨?_, ih ht⟩
      intro z hz
      rcases (mem_orderedInsertD f).mp hz with rfl | hz
      · exact le_of_not_le h
      · exact ha z hz

theorem sortDesc_pairwise :
    ∀ l : List ContentItem,
      (sortDesc f l).Pairwise (fun a b => f b ≤ f a)
  | [] => by simp [sortDesc]
  | a :: t => pairwise_orderedInsertD f (sortDesc_pairwise t)

theorem length_orderedInsertD (x : ContentItem) :
    ∀ l : List ContentItem, (orderedInsertD f x l).length = l.length + 1 := by
  intro l
  induction l with
  | nil => rfl
  | cons a t ih =>
    by_cases h : f a ≤ f x
    · rw [orderedInsertD, if_pos h]
      simp
    · rw [orderedInsertD, if_neg h]
      simp [ih]

theorem length_sortDesc :
    ∀ l : List ContentItem, (sortDesc f l).length = l.length := by
  intro l
  induction l with
  | nil => rfl
  | cons a t ih =>
    rw [sortDesc, length_orderedInsertD, ih]
    simp

theorem filter_orderedInsertD_of_ne (x : ContentItem) (s : ℚ) (hx : f x ≠ s) :
    ∀ l : List ContentItem,
      (orderedInsertD f x l).filter (fun y => decide (f y = s)) =
        l.filter (fun y => decide (f y = s)) := by
  intro l
  induction l with
  | nil => simp [orderedInsertD, List.filter_cons, hx]
  | cons a t ih =>
    by_cases h : f a ≤ f x
    · rw [orderedInsertD, if_pos h]
      simp [List.filter_cons, hx]
    · rw [orderedInsertD, if_neg h]
      by_cases ha : f a = s
      · simp [List.filter_cons, ha, ih]
      · simp [List.filter_cons, ha, ih]

theorem filter_orderedInsertD_of_eq (x : ContentItem) (s : ℚ) (hx : f x = s) :
    ∀ l : List ContentItem,
      (orderedInsertD f x l).filter (fun y => decide (f y = s)) =
        x :: l.filter (fun y => decide (f y = s)) := by
  intro l
  induction l with
  | nil => simp [orderedInsertD, List.filter_cons, hx]
  | cons a t ih =>
    by_cases h : f a ≤ f x
    · rw [orderedInsertD, if_pos h]
      simp [List.filter_cons, hx]
    · have ha : f a ≠ s := by
        intro hh
        exact h (le_of_eq (hx ▸ hh))
      rw [orderedInsertD, if_neg h]
      simp [List.filter_cons, ha, ih]

theorem filter_sortDesc (s : ℚ) :
    ∀ l : List ContentItem,
      (sortDesc f l).filter (fun y => decide (f y = s)) =
        l.filter (fun y => decide (f y = s)) := by
  intro l
  induction l with
  | nil => rfl
  | cons a t ih =>
    by_cases h : f a = s
    · rw [sortDesc, filter_orderedInsertD_of_eq f a s h, ih,
        List.filter_cons]
      simp [h]
    · rw [sortDesc, filter_orderedInsertD_of_ne f a s h, ih,
        List.filter_cons]
      simp [h]

end SortLemmas

/-! Symbolic evaluation lemmas for documents whose bodies are too long to
evaluate by kernel computation (the 5000/10000-character penalty
thresholds). -/

theorem countOccGo_succ (sub s : List Char) (fuel : Nat) :
    countOccGo sub s (fuel + 1) =
      if sub.isPrefixOf s then
        1 + countOccGo sub (s.drop sub.length) fuel
      else
        match s with
        | [] => 0
        | _ :: t => countOccGo sub t fuel := by
  cases s <;> rfl

theorem countOccGo_of_head_notMem (c : Char) (sub : List Char) :
    ∀ (fuel : Nat) (s : List Char), (∀ x ∈ s, x ≠ c) →
      countOccGo (c :: sub) s fuel = 0 := by
  intro fuel
  induction fuel with
  | zero => intro s _; rfl
  | succ fuel ih =>
    intro s hs
    cases s with
    | nil =>
      rw [countOccGo_succ]
      simp [List.isPrefixOf]
    | cons a t =>
      have hne : ¬ (c = a) := fun h => hs a (List.mem_cons_self a t) h.symm
      have hpre : (c :: sub).isPrefixOf (a :: t) = false := by
        simp [List.isPrefixOf, hne]
      rw [countOccGo_succ, hpre]
      simp only [Bool.false_eq_true, if_false]
      show countOccGo (c :: sub) t fuel = 0
      exact ih t (fun x hx => hs x (List.mem_cons_of_mem a hx))

theorem containsSub_of_head_notMem (c : Char) (sub : List Char) :
    ∀ s : List Char, (∀ x ∈ s, x ≠ c) →
      containsSub (c :: sub) s = false := by
  intro s
  induction s with
  | nil =>
    intro _
    simp [containsSub, List.isPrefixOf]
  | cons a t ih =>
    intro hs
    have hne : ¬ (c = a) := fun h => hs a (List.mem_cons_self a t) h.symm
    have hpre : (c :: sub).isPrefixOf (a :: t) = false := by
      simp [List.isPrefixOf, hne]
    have hrest := ih (fun x hx => hs x (List.mem_cons_of_mem a hx))
    simp only [containsSub, List.tails, List.any_cons, hpre,
      Bool.false_or] at *
    exact hrest

/-- The keyword the big-document scenarios use. -/
def kwPool : List Char := "pool".toList

theorem mem_replicate_b {x : Char} {n : Nat}
    (hx : x ∈ List.replicate n 'b') : x = 'b' :=
  List.eq_of_mem_replicate hx

theorem kwPool_cons : kwPool = 'p' :: ['o', 'o', 'l'] := rfl

theorem kwPool_length : kwPool.length = 4 := rfl

theorem countOccGo_pool_append (n fuel : Nat) :
    countOccGo kwPool (kwPool ++ List.replicate n 'b') (fuel + 1) = 1 := by
  have hpre : kwPool.isPrefixOf (kwPool ++ List.replicate n 'b') = true := by
    rw [kwPool_cons]
    simp [List.isPrefixOf, List.cons_append]
  rw [countOccGo_succ, hpre]
  simp only [if_true]
  have hdrop : (kwPool ++ List.replicate n 'b').drop kwPool.length =
      List.replicate n 'b' := List.drop_left _ _
  rw [hdrop, kwPool_cons, countOccGo_of_head_notMem 'p' ['o', 'o', 'l'] fuel
    (List.replicate n 'b') (fun x hx => by rw [mem_replicate_b hx]; decide)]

theorem countOcc_pool_append (n : Nat) :
    countOcc kwPool (kwPool ++ List.replicate n 'b') = 1 := by
  have hlen : (kwPool ++ List.replicate n 'b').length = (n + 3) + 1 := by
    rw [List.length_append, List.length_replicate, kwPool_length]
    omega
  rw [countOcc]
  have hemp : kwPool.isEmpty = false := rfl
  rw [hemp]
  simp only [Bool.false_eq_true, if_false]
  rw [hlen, countOccGo_pool_append]

theorem countOcc_pool_replicate (n : Nat) :
    countOcc kwPool (List.replicate n 'b') = 0 := by
  rw [countOcc]
  have hemp : kwPool.isEmpty = false := rfl
  rw [hemp]
  simp only [Bool.false_eq_true, if_false]
  rw [kwPool_cons]
  exact countOccGo_of_head_notMem 'p' ['o', 'o', 'l'] _
    (List.replicate n 'b') (fun x hx => by rw [mem_replicate_b hx]; decide)

theorem lower_pool_append (n : Nat) :
    lower (kwPool ++ List.replicate n 'b') = kwPool ++ List.replicate n 'b' := by
  show (kwPool ++ List.replicate n 'b').map Char.toLower = _
  rw [List.map_append, List.map_replicate]
  have h1 : kwPool.map Char.toLower = kwPool := by decide
  have h2 : Char.toLower 'b' = 'b' := by decide
  rw [h1, h2]

theorem lower_replicate_b (n : Nat) :
    lower (List.replicate n 'b') = List.replicate n 'b' := by
  show (List.replicate n 'b').map Char.toLower = _
  rw [List.map_replicate]
  have h2 : Char.toLower 'b' = 'b' := by decide
  rw [h2]

theorem notMem_space_pool_append (n : Nat) :
    ∀ x ∈ kwPool ++ List.replicate n 'b', x ≠ ' ' := by
  intro x hx
  rcases List.mem_append.mp hx with h | h
  · have : ∀ y ∈ kwPool, y ≠ ' ' := by decide
    exact this x h
  · rw [mem_replicate_b h]; decide

theorem notMem_space_replicate (n : Nat) :
    ∀ x ∈ List.replicate n 'b', x ≠ ' ' := by
  intro x hx
  rw [mem_replicate_b hx]; decide

/-- A 10001-character document containing the keyword once at the start
of the body, used for the length-penalty claims. -/
def bigItem : ContentItem :=
  ⟨"tt".toList, "d".toList, kwPool ++ List.replicate 9997 'b',
   "u".toList, "s".toList, "g".toList⟩

/-- A 10001-character document containing no keyword occurrence. -/
def itemLong : ContentItem :=
  ⟨"tt".toList, "d".toList, List.replicate 10001 'b',
   "u".toList, "s".toList, "g".toList⟩

/-- A short document otherwise matching `itemLong`: same title, same
(zero) keyword occurrences. -/
def itemShort : ContentItem :=
  ⟨"tt".toList, "d".toList, "xy".toList,
   "u".toList, "s".toList, "g".toList⟩

/-- A short document otherwise matching `bigItem`: same title, same
single keyword occurrence. -/
def itemShortPool : ContentItem :=
  ⟨"tt".toList, "d".toList, kwPool,
   "u".toList, "s".toList, "g".toList⟩

theorem baseScore_bigItem : baseScore [kwPool] bigItem = 1 := by
  rw [baseScore, List.foldl_cons, List.foldl_nil, scoreStep]
  have hbody : lower bigItem.content_full = kwPool ++ List.replicate 9997 'b' :=
    lower_pool_append 9997
  have h1 : containsSub kwPool (lower bigItem.title) = false := by decide
  have h2 : containsSub (' ' :: (kwPool ++ [' '])) (lower bigItem.content_full)
      = false := by
    rw [hbody]
    exact containsSub_of_head_notMem ' ' (kwPool ++ [' ']) _
      (notMem_space_pool_append 9997)
  have h3 : countOcc kwPool (lower bigItem.content_full) = 1 := by
    rw [hbody]; exact countOcc_pool_append 9997
  simp only [h1, h2, h3, Bool.false_eq_true, if_false]

theorem baseScore_itemLong : baseScore [kwPool] itemLong = 0 := by
  rw [baseScore, List.foldl_cons, List.foldl_nil, scoreStep]
  have hbody : lower itemLong.content_full = List.replicate 10001 'b' :=
    lower_replicate_b 10001
  have h1 : containsSub kwPool (lower itemLong.title) = false := by decide
  have h2 : containsSub (' ' :: (kwPool ++ [' '])) (lower itemLong.content_full)
      = false := by
    rw [hbody]
    exact containsSub_of_head_notMem ' ' (kwPool ++ [' ']) _
      (notMem_space_replicate 10001)
  have h3 : countOcc kwPool (lower itemLong.content_full) = 0 := by
    rw [hbody]; exact countOcc_pool_replicate 10001
  simp only [h1, h2, h3, Bool.false_eq_true, if_false]

theorem length_bigItem : bigItem.content_full.length = 10001 := by
  show (kwPool ++ List.replicate 9997 'b').length = 10001
  rw [List.length_append, List.length_replicate, kwPool_length]

theorem length_itemLong : itemLong.content_full.length = 10001 := by
  show (List.replicate 10001 'b').length = 10001
  rw [List.length_replicate]

theorem relevance_score_bigItem : relevance_score [kwPool] bigItem = 1 / 2 := by
  rw [relevance_score, baseScore_bigItem, length_bigItem]
  norm_num

theorem relevance_score_itemLong : relevance_score [kwPool] itemLong = 0 := by
  rw [relevance_score, baseScore_itemLong, length_itemLong]
  norm_num

/-! Spec-side definitions used to compare the source's scoring with the
wording of the spec. -/

def boundaryBefore : Option Char → Bool
  | none => true
  | some c => !c.isAlphanum

def boundaryAfter : List Char → Bool
  | [] => true
  | c :: _ => !c.isAlphanum

/-- Scans `s` remembering the previous character; `kw` matches at a
position when a word boundary (start/end of text or a non-alphanumeric
character, punctuation included) surrounds it. -/
def boundaryOccGo (kw : List Char) : Option Char → List Char → Bool
  | prev, [] =>
    boundaryBefore prev && kw.isPrefixOf [] &&
      boundaryAfter (List.drop kw.length [])
  | prev, c :: t =>
    (boundaryBefore prev && kw.isPrefixOf (c :: t) &&
      boundaryAfter ((c :: t).drop kw.length)) ||
    boundaryOccGo kw (some c) t

/-- The keyword occurs in `s` surrounded by word boundaries, any
boundary counting (punctuation, start or end of text). -/
def boundaryOcc (kw s : List Char) : Bool := boundaryOccGo kw none s

/-- Modelled from the spec: the per-keyword score contribution exactly
as claim C6 words it — `+100` for a title hit, `+50` when the keyword
occurs in the body surrounded by word boundaries (for any boundary,
including punctuation or start/end of text), plus the raw occurrence
count in the body, summed over the keywords. -/
def claimScoreC6 (kws : List (List Char)) (item : ContentItem) : Nat :=
  (kws.map (fun kw =>
    (if containsSub kw (lower item.title) then 100 else 0) +
    (if boundaryOcc kw (lower item.content_full) then 50 else 0) +
    countOcc kw (lower item.content_full))).sum

/-- The per-keyword contribution as the source actually computes it:
the `+50` bonus requires a literal space character on each side of the
keyword in the body. -/
def contribution (kw : List Char) (item : ContentItem) : Nat :=
  (if containsSub kw (lower item.title) then 100 else 0) +
  (if containsSub (' ' :: (kw ++ [' '])) (lower item.content_full) then 50
   else 0) +
  countOcc kw (lower item.content_full)

theorem scoreStep_eq_contribution (item : ContentItem) (sc : Nat)
    (kw : List Char) : scoreStep item sc kw = sc + contribution kw item := by
  rw [scoreStep, contribution]
  by_cases h1 : containsSub kw (lower item.title) <;>
    by_cases h2 :
      containsSub (' ' :: (kw ++ [' '])) (lower item.content_full) <;>
    simp [h1, h2] <;> omega

/-- The document of the C6 counterexample: the keyword occurs at the
very start of the body, so it is word-boundary-surrounded (start of
text on the left, a space on the right) but not space-surrounded. -/
def itemPoolOpen : ContentItem :=
  ⟨"tt".toList, "d".toList, "pool is open".toList,
   "u".toList, "s".toList, "g".toList⟩

/-- C6 counterexample: for keyword "pool" and a body "pool is open",
the spec's formula awards the +50 word-boundary bonus (score 51), but
the source awards no bonus because `" pool "` with literal spaces does
not occur (score 1), so the claimed contribution formula is false. -/
theorem keyword_bonus_boundary_counterexample :
    baseScore [kwPool] itemPoolOpen = 1 ∧
    claimScoreC6 [kwPool] itemPoolOpen = 51 ∧
    baseScore [kwPool] itemPoolOpen ≠ claimScoreC6 [kwPool] itemPoolOpen := by
  refine ⟨by decide, by decide, by decide⟩

/-- C6 (amended): the per-keyword score contribution is +100 for a
title hit, +50 only when the keyword occurs in the body with a literal
space character immediately on each side, plus the raw count of
non-overlapping substring occurrences in the body, summed over all
keywords. -/
theorem keyword_contribution_formula (kws : List (List Char))
    (item : ContentItem) :
    baseScore kws item =
      (kws.map (fun kw => contribution kw item)).sum := by
  rw [baseScore]
  have hgen : ∀ (ks : List (List Char)) (init : Nat),
      ks.foldl (scoreStep item) init =
        init + (ks.map (fun kw => contribution kw item)).sum := by
    intro ks
    induction ks with
    | nil => intro init; simp
    | cons k r ih =>
      intro init
      rw [List.foldl_cons, ih, scoreStep_eq_contribution, List.map_cons,
        List.sum_cons]
      omega
  simpa using hgen kws 0

/-- C3 (code bug): `relevance_score` multiplies a 10001-character
document's score by 0.5, not by the 0.3 the spec (and the source's own
"70% penalty" comment) prescribes — the `elif content_length > 10000`
branch is unreachable because `content_length > 5000` already caught it. -/
theorem long_document_gets_half_penalty :
    bigItem.content_full.length = 10001 ∧
    baseScore [kwPool] bigItem = 1 ∧
    relevance_score [kwPool] bigItem = 1 / 2 :=
  ⟨length_bigItem, baseScore_bigItem, relevance_score_bigItem⟩

/-- C5: the ranked sequence returned by `search_content` is sorted in
non-increasing relevance-score order, results with equal score keep
their union-discovery (candidate-insertion) order — the stable sort
moves no element across an equal-scored one, stated as score-class
filters being preserved — and at most `limit` results are returned. -/
theorem search_ranking_sorted_stable_bounded (docs : List ContentItem)
    (query : List Char) (limit : Nat) :
    (search_content docs query limit).Pairwise
      (fun a b => relevance_score (extractKeywords query) b ≤
        relevance_score (extractKeywords query) a) ∧
    (search_content docs query limit).length ≤ limit ∧
    (∀ s : ℚ,
      (sortDesc (relevance_score (extractKeywords query))
          (gatherCandidates docs (extractKeywords query))).filter
        (fun x => decide (relevance_score (extractKeywords query) x = s)) =
      (gatherCandidates docs (extractKeywords query)).filter
        (fun x => decide (relevance_score (extractKeywords query) x = s))) := by
  refine ⟨?_, ?_, ?_⟩
  · have h := SortLemmas.sortDesc_pairwise
      (relevance_score (extractKeywords query))
      (gatherCandidates docs (extractKeywords query))
    simp only [search_content]
    exact List.Pairwise.sublist (List.take_sublist _ _) h
  · simp only [search_content]
    exact List.length_take_le _ _
  · intro s
    exact SortLemmas.filter_sortDesc _ s _

/-- C9 counterexample: two documents identical except for body length
(same title, zero keyword occurrences in both bodies) both score 0, so
the >10000-character one does not score strictly smaller than the
≤5000-character one. -/
theorem length_penalty_zero_score_tie :
    itemLong.content_full.length > 10000 ∧
    itemShort.content_full.length ≤ 5000 ∧
    itemLong.title = itemShort.title ∧
    baseScore [kwPool] itemLong = baseScore [kwPool] itemShort ∧
    ¬ relevance_score [kwPool] itemLong <
        relevance_score [kwPool] itemShort := by
  refine ⟨?_, by decide, rfl, ?_, ?_⟩
  · rw [length_itemLong]; norm_num
  · rw [baseScore_itemLong]; decide
  · rw [relevance_score_itemLong]
    have h : relevance_score [kwPool] itemShort = 0 := by decide
    rw [h]
    norm_num

/-- C9 (amended): among documents identical for scoring purposes (equal
keyword-accumulated score), a body longer than 10000 characters scores
strictly below a body of at most 5000 characters provided the
accumulated score is positive; with score 0 both sides are equal. -/
theorem length_penalty_strict_when_positive (kws : List (List Char))
    (a b : ContentItem)
    (hA : 10000 < a.content_full.length)
    (hB : b.content_full.length ≤ 5000)
    (heq : baseScore kws a = baseScore kws b)
    (hpos : 0 < baseScore kws a) :
    relevance_score kws a < relevance_score kws b := by
  simp only [relevance_score]
  have hA5 : a.content_full.length > 5000 := by omega
  have hB5 : ¬ (b.content_full.length > 5000) := by omega
  have hB10 : ¬ (b.content_full.length > 10000) := by omega
  rw [if_pos hA5, if_neg hB5, if_neg hB10, heq]
  have hb : (0 : ℚ) < (baseScore kws b : ℚ) := by
    exact_mod_cast heq ▸ hpos
  linarith

/-- Witness for C9's amended theorem at a concrete pair of documents. -/
theorem length_penalty_strict_when_positive_witness :
    10000 < bigItem.content_full.length ∧
    itemShortPool.content_full.length ≤ 5000 ∧
    baseScore [kwPool] bigItem = baseScore [kwPool] itemShortPool ∧
    0 < baseScore [kwPool] bigItem ∧
    relevance_score [kwPool] bigItem <
      relevance_score [kwPool] itemShortPool := by
  have h1 : 10000 < bigItem.content_full.length := by
    rw [length_bigItem]; norm_num
  have h2 : itemShortPool.content_full.length ≤ 5000 := by decide
  have h3 : baseScore [kwPool] bigItem = baseScore [kwPool] itemShortPool := by
    rw [baseScore_bigItem]; decide
  have h4 : 0 < baseScore [kwPool] bigItem := by
    rw [baseScore_bigItem]; norm_num
  exact ⟨h1, h2, h3, h4,
    length_penalty_strict_when_positive [kwPool] bigItem itemShortPool
      h1 h2 h3 h4⟩

/-!
The orchestrator (`RAGHandler`).  The external generation service is
modelled as oracle data: `GenClient` holds the outcome the non-streaming
`ollama.chat` call would produce on the grounded and on the fallback
prompt (`.error e` models the call raising an exception whose text is
`e`); `GenStream` holds the chunk sequence of the streaming call and,
optionally, the exception text it raises mid-stream.  The md5 cache
fingerprint is modelled by the normalised question itself (md5 is a
fixed injective-in-intent fingerprint of exactly that string; the code
never inverts it).  `ask` additionally returns how many generation-client
calls the run performed.
-/

structure Msg where
  role : List Char
  content : List Char
deriving DecidableEq

structure SourceRef where
  title : List Char
  url : List Char
  source : List Char
  category : List Char
deriving DecidableEq

structure AnswerResult where
  answer : List Char
  sources : List SourceRef
  query : List Char
  conversation_id : List Char
deriving DecidableEq

/-- `self.cache` and `self.conversations`: insertion-ordered maps. -/
structure RAGState where
  cache : List (List Char × AnswerResult)
  conversations : List (List Char × List Msg)
deriving DecidableEq

structure GenClient where
  grounded : Except (List Char) (List Char)
  fallback : Except (List Char) (List Char)

structure GenStream where
  chunks : List (List Char)
  failure : Option (List Char)
deriving DecidableEq

/-- Python dict read (`m[k]` guarded by `k in m`). -/
def alookup {β : Type} (k : List Char) :
    List (List Char × β) → Option β
  | [] => none
  | (k', v) :: rest => if k = k' then some v else alookup k rest

/-- Python dict write `m[k] = v`: replace in place or append. -/
def aset {β : Type} (k : List Char) (v : β) :
    List (List Char × β) → List (List Char × β)
  | [] => [(k, v)]
  | (k', v') :: rest =>
    if k = k' then (k, v) :: rest else (k', v') :: aset k v rest

/-- A conversation's turn history, the absent id reading as empty. -/
def histD (cid : List Char) (st : RAGState) : List Msg :=
  (alookup cid st.conversations).getD []

/-- `if conversation_id not in self.conversations:
self.conversations[conversation_id] = []`. -/
def initConv (cid : List Char) (st : RAGState) : RAGState :=
  match alookup cid st.conversations with
  | some _ => st
  | none => { st with conversations := aset cid [] st.conversations }

/-- Python `l[-n:]`. -/
def lastN {α : Type} (n : Nat) (l : List α) : List α :=
  l.drop (l.length - n)

/-- The cache fingerprint: `md5(question.lower().strip())`, modelled by
the normalised question itself. -/
def normalizeKey (q : List Char) : List Char := stripWs (lower q)

/-- The string `_generate_answer` fabricates when the grounded
generation call raises. -/
def errWrapGrounded (e : List Char) : List Char :=
  "I encountered an error generating an answer: ".toList ++ e ++ ".".toList

/-- The string `_generate_fallback_answer` fabricates when the fallback
generation call raises. -/
def errWrapFallback (e : List Char) : List Char :=
  "I couldn't find this information: ".toList ++ e

/-- `RAGHandler._generate_answer`: returns the client's answer, or, when
the client raises, swallows the exception into an apology string. -/
def _generate_answer (gen : GenClient) : List Char :=
  match gen.grounded with
  | .ok a => a
  | .error e => errWrapGrounded e

/-- `RAGHandler._generate_fallback_answer`: same shape on the fallback
prompt. -/
def _generate_fallback_answer (gen : GenClient) : List Char :=
  match gen.fallback with
  | .ok a => a
  | .error e => errWrapFallback e

/-- `RAGHandler._format_sources`. -/
def _format_sources (items : List ContentItem) : List SourceRef :=
  items.map (fun item => ⟨item.title, item.url, item.source, item.category⟩)

/-- The `insufficient_phrases` list of `RAGHandler.ask`. -/
def insufficient_phrases : List (List Char) :=
  ["couldn't find".toList,
   "don't have".toList,
   "no information".toList,
   "doesn't seem to be".toList,
   "not mentioned".toList,
   "no mention".toList,
   "unfortunately".toList]

/-- The sufficiency gate of `RAGHandler.ask`:
`any(phrase in answer_lower for phrase in insufficient_phrases)`. -/
def isInsufficient (answer : List Char) : Bool :=
  insufficient_phrases.any (fun p => containsSub p (lower answer))

/-- `RAGHandler._handle_fallback`: generate from general knowledge,
append both turns, cache when the pre-append history was empty and the
cache key is truthy (`none` models the falsy `""` that `ask_stream`
passes).  The third component counts generation-client calls. -/
def _handle_fallback (gen : GenClient) (st : RAGState)
    (question cid : List Char) (cache_key : Option (List Char)) :
    AnswerResult × RAGState × Nat :=
  let conversation_history := lastN 10 (histD cid st)
  let fallback_answer := _generate_fallback_answer gen
  let conv' := histD cid st ++
    [⟨"user".toList, question⟩, ⟨"assistant".toList, fallback_answer⟩]
  let st1 : RAGState := { st with conversations := aset cid conv' st.conversations }
  let result : AnswerResult := ⟨fallback_answer, [], question, cid⟩
  let st2 :=
    match cache_key with
    | some k =>
      if conversation_history.isEmpty then
        { st1 with cache := aset k result st1.cache }
      else st1
    | none => st1
  (result, st2, 1)

/-- `RAGHandler.ask` (non-streaming). -/
def ask (gen : GenClient) (docs : List ContentItem) (st0 : RAGState)
    (question cid : List Char) (max_sources : Nat) :
    AnswerResult × RAGState × Nat :=
  let st := initConv cid st0
  let cache_key := normalizeKey question
  match (if (histD cid st).isEmpty then alookup cache_key st.cache
         else none) with
  | some cached => (cached, st, 0)
  | none =>
    let relevant_items := search_content docs question max_sources
    if relevant_items.isEmpty then
      _handle_fallback gen st question cid (some cache_key)
    else
      let conversation_history := lastN 10 (histD cid st)
      let answer := _generate_answer gen
      let sources := _format_sources relevant_items
      if isInsufficient answer then
        let r := _handle_fallback gen st question cid (some cache_key)
        (r.1, r.2.1, r.2.2 + 1)
      else
        let conv' := histD cid st ++
          [⟨"user".toList, question⟩, ⟨"assistant".toList, answer⟩]
        let st1 : RAGState :=
          { st with conversations := aset cid conv' st.conversations }
        let result : AnswerResult := ⟨answer, sources, question, cid⟩
        let st2 :=
          if conversation_history.isEmpty then
            { st1 with cache := aset cache_key result st1.cache }
          else st1
        (result, st2, 1)

/-- The streaming event type.  `error` is the event type the spec
names; the code's generator only ever yields `sources`, `token` and
`done` dictionaries. -/
inductive Ev where
  | sources (data : List SourceRef)
  | token (data : List Char)
  | done (srcs : Option (List SourceRef)) (conversation_id : List Char)
  | error (msg : List Char)
deriving DecidableEq

def Ev.isToken : Ev → Bool
  | .token _ => true
  | _ => false

def Ev.isDone : Ev → Bool
  | .done _ _ => true
  | _ => false

def Ev.isSources : Ev → Bool
  | .sources _ => true
  | _ => false

def Ev.isErr : Ev → Bool
  | .error _ => true
  | _ => false

/-- `RAGHandler._generate_answer_stream`: the client's chunks; when the
client raises mid-stream the exception is swallowed and the text
`"Error: {e}"` is yielded as one more ordinary chunk. -/
def _generate_answer_stream (gs : GenStream) : List (List Char) :=
  gs.chunks ++
    (match gs.failure with
     | some e => ["Error: ".toList ++ e]
     | none => [])

/-- `RAGHandler.ask_stream`: the full event sequence the generator
yields, together with the final handler state.  On the empty-retrieval
path the fallback answer is yielded as a single `token` and the `done`
event carries an empty source list (the code passes cache key `""`,
which is falsy, so nothing is cached). -/
def ask_stream (gen : GenClient) (gs : GenStream) (docs : List ContentItem)
    (st0 : RAGState) (question cid : List Char) (max_sources : Nat) :
    List Ev × RAGState :=
  let st := initConv cid st0
  let relevant_items := search_content docs question max_sources
  if relevant_items.isEmpty then
    let r := _handle_fallback gen st question cid none
    ([Ev.token r.1.answer, Ev.done (some []) cid], r.2.1)
  else
    let sources := _format_sources relevant_items
    let chunks := _generate_answer_stream gs
    let full_answer := chunks.foldl (· ++ ·) []
    let conv' := histD cid st ++
      [⟨"user".toList, question⟩, ⟨"assistant".toList, full_answer⟩]
    let st1 : RAGState :=
      { st with conversations := aset cid conv' st.conversations }
    (Ev.sources sources :: chunks.map Ev.token ++ [Ev.done none cid], st1)

/-! Helper lemmas about the handler state. -/

theorem alookup_aset_self {β : Type} (k : List Char) (v : β) :
    ∀ m : List (List Char × β), alookup k (aset k v m) = some v := by
  intro m
  induction m with
  | nil => simp [aset, alookup]
  | cons p rest ih =>
    obtain ⟨k', v'⟩ := p
    by_cases h : k = k'
    · simp [aset, h, alookup]
    · simp [aset, h, alookup, ih]

theorem alookup_aset_ne {β : Type} (k k' : List Char) (v : β)
    (h : k ≠ k') : ∀ m : List (List Char × β),
      alookup k (aset k' v m) = alookup k m := by
  intro m
  induction m with
  | nil => simp [aset, alookup, h]
  | cons p rest ih =>
    obtain ⟨k'', v''⟩ := p
    by_cases h2 : k' = k''
    · subst h2
      simp [aset, alookup, h]
    · simp only [aset, if_neg h2]
      by_cases h3 : k = k''
      · simp [alookup, h3]
      · simp [alookup, h3, ih]

theorem initConv_cache (cid : List Char) (st : RAGState) :
    (initConv cid st).cache = st.cache := by
  rw [initConv]
  cases alookup cid st.conversations <;> rfl

theorem histD_initConv (cid c : List Char) (st : RAGState) :
    histD c (initConv cid st) = histD c st := by
  rw [initConv]
  cases h : alookup cid st.conversations with
  | some l => rfl
  | none =>
    by_cases hc : c = cid
    · subst hc
      show (alookup c (aset c [] st.conversations)).getD [] =
        (alookup c st.conversations).getD []
      rw [alookup_aset_self, h]
      rfl
    · show (alookup c (aset cid [] st.conversations)).getD [] =
        (alookup c st.conversations).getD []
      rw [alookup_aset_ne c cid [] hc]

theorem initConv_of_hist_ne (cid : List Char) (st : RAGState)
    (h : histD cid st ≠ []) : initConv cid st = st := by
  rw [initConv]
  cases ha : alookup cid st.conversations with
  | some l => rfl
  | none =>
    exact absurd (by rw [histD, ha]; rfl) h

theorem lastN_ne_nil {α : Type} (l : List α) (h : l ≠ []) :
    lastN 10 l ≠ [] := by
  rw [lastN]
  intro hc
  rw [List.drop_eq_nil_iff] at hc
  have hp : 0 < l.length := List.length_pos.mpr h
  omega

theorem isEmpty_false_of_ne {α : Type} (l : List α) (h : l ≠ []) :
    l.isEmpty = false := by
  cases l with
  | nil => exact absurd rfl h
  | cons a t => rfl

/-! Component lemmas for `_handle_fallback`. -/

theorem handle_fallback_result (gen : GenClient) (st : RAGState)
    (q cid : List Char) (k : Option (List Char)) :
    (_handle_fallback gen st q cid k).1 =
      ⟨_generate_fallback_answer gen, [], q, cid⟩ := rfl

theorem handle_fallback_count (gen : GenClient) (st : RAGState)
    (q cid : List Char) (k : Option (List Char)) :
    (_handle_fallback gen st q cid k).2.2 = 1 := rfl

theorem handle_fallback_conversations (gen : GenClient) (st : RAGState)
    (q cid : List Char) (k : Option (List Char)) :
    (_handle_fallback gen st q cid k).2.1.conversations =
      aset cid (histD cid st ++
        [⟨"user".toList, q⟩,
         ⟨"assistant".toList, _generate_fallback_answer gen⟩])
        st.conversations := by
  simp only [_handle_fallback]
  split <;> first | rfl | (split <;> rfl)

theorem handle_fallback_cache_of_prior (gen : GenClient) (st : RAGState)
    (q cid : List Char) (k : Option (List Char))
    (h : histD cid st ≠ []) :
    (_handle_fallback gen st q cid k).2.1.cache = st.cache := by
  simp only [_handle_fallback]
  split <;>
    first
    | rfl
    | (rw [isEmpty_false_of_ne _ (lastN_ne_nil _ h)]; rfl)

theorem handle_fallback_cache_none_key (gen : GenClient) (st : RAGState)
    (q cid : List Char) :
    (_handle_fallback gen st q cid none).2.1.cache = st.cache := rfl

/-! Shape lemmas for `ask`. -/

/-- A cache hit (empty history, fingerprint present) returns the cached
result unchanged, performing no generation call. -/
theorem ask_cache_hit (gen : GenClient) (docs : List ContentItem)
    (st0 : RAGState) (q cid : List Char) (m : Nat) (r : AnswerResult)
    (hr : alookup (normalizeKey q) st0.cache = some r)
    (hh : histD cid st0 = []) :
    ask gen docs st0 q cid m = (r, initConv cid st0, 0) := by
  simp only [ask]
  have h1 : histD cid (initConv cid st0) = [] := by
    rw [histD_initConv]; exact hh
  have h2 : (initConv cid st0).cache = st0.cache := initConv_cache cid st0
  rw [h1, h2, hr]
  rfl

/-- With a prior turn in the conversation the cache branch is dead:
`ask` runs retrieval and generation and never consults or updates the
cache. -/
theorem ask_of_prior_turns (gen : GenClient) (docs : List ContentItem)
    (st0 : RAGState) (q cid : List Char) (m : Nat)
    (hh : histD cid st0 ≠ []) :
    ask gen docs st0 q cid m =
      (if (search_content docs q m).isEmpty then
        _handle_fallback gen st0 q cid (some (normalizeKey q))
       else if isInsufficient (_generate_answer gen) then
        ((_handle_fallback gen st0 q cid (some (normalizeKey q))).1,
         (_handle_fallback gen st0 q cid (some (normalizeKey q))).2.1,
         (_handle_fallback gen st0 q cid (some (normalizeKey q))).2.2 + 1)
       else
        (⟨_generate_answer gen, _format_sources (search_content docs q m),
            q, cid⟩,
         { st0 with conversations := aset cid (histD cid st0 ++ [⟨"user".toList, q⟩, ⟨"assistant".toList, _generate_answer gen⟩]) st0.conversations },
         1)) := by
  have hsc : (if (histD cid (initConv cid st0)).isEmpty then
      alookup (normalizeKey q) (initConv cid st0).cache else none) = none := by
    rw [initConv_of_hist_ne cid st0 hh, isEmpty_false_of_ne _ hh]
    rfl
  simp only [ask]
  rw [hsc, initConv_of_hist_ne cid st0 hh]
  split
  case h_1 =>
    rename_i heq
    exact Option.noConfusion heq
  case h_2 =>
    split
    · rfl
    · split
      · rfl
      · rw [isEmpty_false_of_ne _ (lastN_ne_nil _ hh)]
        rfl

/-- On a cache miss `ask` proceeds to retrieval whatever the history. -/
theorem ask_cache_miss (gen : GenClient) (docs : List ContentItem)
    (st0 : RAGState) (q cid : List Char) (m : Nat)
    (hmiss : alookup (normalizeKey q) st0.cache = none) :
    ask gen docs st0 q cid m =
      (if (search_content docs q m).isEmpty then
        _handle_fallback gen (initConv cid st0) q cid
          (some (normalizeKey q))
       else if isInsufficient (_generate_answer gen) then
        ((_handle_fallback gen (initConv cid st0) q cid
            (some (normalizeKey q))).1,
         (_handle_fallback gen (initConv cid st0) q cid
            (some (normalizeKey q))).2.1,
         (_handle_fallback gen (initConv cid st0) q cid
            (some (normalizeKey q))).2.2 + 1)
       else
        (let result : AnswerResult :=
          ⟨_generate_answer gen, _format_sources (search_content docs q m),
            q, cid⟩
         let st1 : RAGState :=
          { initConv cid st0 with conversations := aset cid (histD cid (initConv cid st0) ++ [⟨"user".toList, q⟩, ⟨"assistant".toList, _generate_answer gen⟩]) (initConv cid st0).conversations }
         if (lastN 10 (histD cid (initConv cid st0))).isEmpty then
           (result, { st1 with cache := aset (normalizeKey q) result st1.cache }, 1)
         else (result, st1, 1))) := by
  simp only [ask]
  rw [initConv_cache cid st0, hmiss]
  have hnone : (if (histD cid (initConv cid st0)).isEmpty then
      (none : Option AnswerResult) else none) = none := by
    split <;> rfl
  rw [hnone]
  split
  case h_1 =>
    rename_i heq
    exact Option.noConfusion heq
  case h_2 =>
    split
    · rfl
    · split
      · rfl
      · by_cases hC : (lastN 10 (histD cid (initConv cid st0))).isEmpty = true
        · rw [if_pos hC, if_pos hC]
        · rw [if_neg hC, if_neg hC]

/-! Concrete fixtures for counterexamples and witnesses. -/

/-- A small stored document matching the keyword "pool". -/
def itemP : ContentItem :=
  ⟨"Pool Info".toList, "desc".toList, "pool is open".toList,
   "u".toList, "city".toList, "general".toList⟩

def docs1 : List ContentItem := [itemP]

def emptyState : RAGState := ⟨[], []⟩

/-- A generation client that raises on the grounded prompt. -/
def genGroundedBoom : GenClient :=
  ⟨.error "boom".toList, .ok "general answer".toList⟩

/-- A streaming client that yields one chunk and then raises. -/
def gsFail : GenStream := ⟨["Hello ".toList], some "boom".toList⟩

/-- A generation client that succeeds on both prompts. -/
def genBenign : GenClient := ⟨.ok "a".toList, .ok "b".toList⟩

/-- A generation client whose grounded answer trips the sufficiency
gate. -/
def genInsuff : GenClient :=
  ⟨.ok "unfortunately no".toList, .ok "general answer".toList⟩

/-- A cached result created under conversation id "orig". -/
def rOrig : AnswerResult := ⟨"ans".toList, [], "pool".toList, "orig".toList⟩

/-- A state whose cache already holds the fingerprint of "pool". -/
def stCached : RAGState := ⟨[(normalizeKey "pool".toList, rOrig)], []⟩

/-- A state in which conversation "c1" already has two turns. -/
def stPrior : RAGState :=
  ⟨[], [("c1".toList,
    [⟨"user".toList, "hi".toList⟩, ⟨"assistant".toList, "hello".toList⟩])]⟩

/-! Remaining claim theorems. -/

/-- C1 counterexample: with one relevant document and a grounded
generation failure, the non-streaming Ask returns a normal result whose
answer is the fabricated error string, with sources attached, after a
single generation call — the fallback path is never attempted and no
error result exists. -/
theorem grounded_error_returned_as_answer :
    (ask genGroundedBoom docs1 emptyState "pool".toList "c1".toList 5).1.answer
      = errWrapGrounded "boom".toList ∧
    (ask genGroundedBoom docs1 emptyState "pool".toList "c1".toList 5).1.sources
      ≠ [] ∧
    (ask genGroundedBoom docs1 emptyState "pool".toList "c1".toList 5).2.2
      = 1 ∧
    genGroundedBoom.grounded = Except.error "boom".toList :=
  ⟨by decide, by decide, by decide, rfl⟩

/-- C1 (amended): when the Generation Client raises on the grounded
path, the exception is swallowed: `ask` returns a normal AnswerResult
whose answer embeds the error text
(`"I encountered an error generating an answer: {e}."`), with the
retrieved sources, and the fallback path is not attempted (exactly one
generation call) unless the fabricated text happens to contain an
insufficiency phrase. -/
theorem grounded_error_swallowed (gen : GenClient) (docs : List ContentItem)
    (st0 : RAGState) (q cid : List Char) (m : Nat) (e : List Char)
    (hg : gen.grounded = Except.error e)
    (hins : isInsufficient (errWrapGrounded e) = false)
    (hne : search_content docs q m ≠ [])
    (hmiss : alookup (normalizeKey q) st0.cache = none) :
    (ask gen docs st0 q cid m).1 =
      ⟨errWrapGrounded e, _format_sources (search_content docs q m), q, cid⟩ ∧
    (ask gen docs st0 q cid m).2.2 = 1 := by
  have hans : _generate_answer gen = errWrapGrounded e := by
    simp [_generate_answer, hg]
  have hne' : ¬ ((search_content docs q m).isEmpty = true) := by
    rw [isEmpty_false_of_ne _ hne]
    simp
  have hins' : ¬ (isInsufficient (_generate_answer gen) = true) := by
    rw [hans, hins]
    simp
  rw [ask_cache_miss gen docs st0 q cid m hmiss]
  dsimp only
  rw [if_neg hne', if_neg hins', hans]
  refine ⟨?_, ?_⟩ <;> split <;> rfl

/-- Witness for C1's amended theorem at a concrete run. -/
theorem grounded_error_swallowed_witness :
    (ask genGroundedBoom docs1 emptyState "pool".toList "c1".toList 5).1 =
      ⟨errWrapGrounded "boom".toList,
       _format_sources (search_content docs1 "pool".toList 5),
       "pool".toList, "c1".toList⟩ ∧
    (ask genGroundedBoom docs1 emptyState "pool".toList "c1".toList 5).2.2
      = 1 :=
  grounded_error_swallowed genGroundedBoom docs1 emptyState "pool".toList
    "c1".toList 5 "boom".toList rfl (by decide) (by decide) rfl

/-- C2 counterexample: with a mid-stream generation failure the event
sequence contains zero `error` events (not exactly one) and still ends
with a `done` event — the claimed error-and-terminate behaviour is
false on the code. -/
theorem stream_failure_emits_no_error_event :
    (ask_stream genGroundedBoom gsFail docs1 emptyState "pool".toList
        "c1".toList 5).1.countP Ev.isErr = 0 ∧
    (ask_stream genGroundedBoom gsFail docs1 emptyState "pool".toList
        "c1".toList 5).1.getLast? =
      some (Ev.done none "c1".toList) ∧
    gsFail.failure = some "boom".toList := by
  refine ⟨by decide, by decide, rfl⟩

/-- C2 (amended): when the streaming Generation Client fails mid-stream,
no `error` event is emitted: the swallowed exception text
(`"Error: {e}"`) is yielded as one final `token` event and a normal
`done` event still terminates the stream. -/
theorem stream_failure_token_then_done (gen : GenClient) (gs : GenStream)
    (docs : List ContentItem) (st0 : RAGState) (q cid : List Char) (m : Nat)
    (e : List Char) (hf : gs.failure = some e)
    (hne : search_content docs q m ≠ []) :
    (ask_stream gen gs docs st0 q cid m).1 =
      Ev.sources (_format_sources (search_content docs q m)) ::
        (gs.chunks.map Ev.token ++
          [Ev.token ("Error: ".toList ++ e), Ev.done none cid]) ∧
    (∀ ev ∈ (ask_stream gen gs docs st0 q cid m).1,
      Ev.isErr ev = false) := by
  have hne' : ¬ ((search_content docs q m).isEmpty = true) := by
    rw [isEmpty_false_of_ne _ hne]
    simp
  have hevs : (ask_stream gen gs docs st0 q cid m).1 =
      Ev.sources (_format_sources (search_content docs q m)) ::
        (gs.chunks.map Ev.token ++
          [Ev.token ("Error: ".toList ++ e), Ev.done none cid]) := by
    simp only [ask_stream]
    rw [if_neg hne']
    simp only [_generate_answer_stream, hf]
    simp [List.map_append]
  refine ⟨hevs, ?_⟩
  intro ev hev
  rw [hevs] at hev
  simp only [List.mem_cons, List.mem_append, List.mem_map,
    List.mem_singleton] at hev
  rcases hev with h | h
  · rw [h]; rfl
  · rcases h with h | h
    · rcases h with ⟨a, _, h⟩
      rw [← h]; rfl
    · rcases h with h | h
      · rw [h]; rfl
      · rcases h with h | h
        · rw [h]; rfl
        · exact absurd h (List.not_mem_nil ev)

/-- Witness for C2's amended theorem at a concrete failing stream. -/
theorem stream_failure_token_then_done_witness :
    (ask_stream genGroundedBoom gsFail docs1 emptyState "pool".toList
        "c1".toList 5).1 =
      Ev.sources (_format_sources (search_content docs1 "pool".toList 5)) ::
        (gsFail.chunks.map Ev.token ++
          [Ev.token ("Error: ".toList ++ "boom".toList),
           Ev.done none "c1".toList]) ∧
    (∀ ev ∈ (ask_stream genGroundedBoom gsFail docs1 emptyState
        "pool".toList "c1".toList 5).1, Ev.isErr ev = false) :=
  stream_failure_token_then_done genGroundedBoom gsFail docs1 emptyState
    "pool".toList "c1".toList 5 "boom".toList rfl (by decide)

theorem countP_map_token (p : Ev → Bool) (hp : ∀ d, p (Ev.token d) = false) :
    ∀ l : List (List Char), (l.map Ev.token).countP p = 0 := by
  intro l
  induction l with
  | nil => rfl
  | cons a t ih =>
    simp [List.map_cons, List.countP_cons, hp a, ih]

/-- C8: every streaming event sequence is an optional leading `sources`
event, then only `token` events, then a single terminal `done` event:
`sources` precedes every `token`, `done` follows every `token` and is
final, and neither control event occurs more than once. -/
theorem stream_event_protocol (gen : GenClient) (gs : GenStream)
    (docs : List ContentItem) (st0 : RAGState) (q cid : List Char)
    (m : Nat) :
    ∃ (pre : List Ev) (toks : List (List Char))
      (d : Option (List SourceRef)),
      (ask_stream gen gs docs st0 q cid m).1 =
        pre ++ toks.map Ev.token ++ [Ev.done d cid] ∧
      (pre = [] ∨ ∃ s, pre = [Ev.sources s]) ∧
      (ask_stream gen gs docs st0 q cid m).1.countP Ev.isDone = 1 ∧
      (ask_stream gen gs docs st0 q cid m).1.countP Ev.isSources ≤ 1 := by
  simp only [ask_stream]
  split
  · refine ⟨[],
      [(_handle_fallback gen (initConv cid st0) q cid none).1.answer],
      some [], ?_, Or.inl rfl, ?_, ?_⟩
    · simp
    · simp [List.countP_cons, Ev.isDone]
    · simp [List.countP_cons, Ev.isSources]
  · refine ⟨[Ev.sources (_format_sources (search_content docs q m))],
      _generate_answer_stream gs, none, ?_, Or.inr ⟨_, rfl⟩, ?_, ?_⟩
    · simp
    · simp [List.countP_cons, List.countP_append, Ev.isDone,
        countP_map_token Ev.isDone (fun _ => rfl)]
    · simp [List.countP_cons, List.countP_append, Ev.isSources,
        countP_map_token Ev.isSources (fun _ => rfl)]

/-- C7 counterexample: an answer containing "unable to find" is not
classified insufficient — that phrase is not in the code's marker
list. -/
theorem unable_to_find_not_a_marker :
    containsSub "unable to find".toList
      (lower "I am unable to find that in the database.".toList) = true ∧
    isInsufficient "I am unable to find that in the database.".toList
      = false :=
  ⟨by decide, by decide⟩

/-- C7 (amended): the sufficiency gate classifies an answer as
insufficient exactly when its lower-cased text contains one of the
seven fixed phrases "couldn't find", "don't have", "no information",
"doesn't seem to be", "not mentioned", "no mention", "unfortunately"
("unable to find" is not a marker); an insufficient grounded answer is
rerouted to fallback generation, whose answer (with no sources, after a
second generation call) is returned. -/
theorem insufficiency_marker_set :
    (∀ a : List Char, isInsufficient a = true ↔
      (containsSub "couldn't find".toList (lower a) = true ∨
       containsSub "don't have".toList (lower a) = true ∨
       containsSub "no information".toList (lower a) = true ∨
       containsSub "doesn't seem to be".toList (lower a) = true ∨
       containsSub "not mentioned".toList (lower a) = true ∨
       containsSub "no mention".toList (lower a) = true ∨
       containsSub "unfortunately".toList (lower a) = true)) ∧
    (∀ (gen : GenClient) (docs : List ContentItem) (st0 : RAGState)
       (q cid : List Char) (m : Nat) (ans : List Char),
      gen.grounded = Except.ok ans →
      isInsufficient ans = true →
      alookup (normalizeKey q) st0.cache = none →
      search_content docs q m ≠ [] →
      (ask gen docs st0 q cid m).1.answer = _generate_fallback_answer gen ∧
      (ask gen docs st0 q cid m).1.sources = [] ∧
      (ask gen docs st0 q cid m).2.2 = 2) := by
  constructor
  · intro a
    simp only [isInsufficient, insufficient_phrases, List.any_cons,
      List.any_nil, Bool.or_eq_true]
    tauto
  · intro gen docs st0 q cid m ans hg hins hmiss hne
    have hans : _generate_answer gen = ans := by
      simp [_generate_answer, hg]
    have hne' : ¬ ((search_content docs q m).isEmpty = true) := by
      rw [isEmpty_false_of_ne _ hne]
      simp
    have hins' : isInsufficient (_generate_answer gen) = true := by
      rw [hans]
      exact hins
    rw [ask_cache_miss gen docs st0 q cid m hmiss]
    dsimp only
    rw [if_neg hne', if_pos hins']
    refine ⟨?_, ?_, ?_⟩
    · rw [handle_fallback_result]
    · rw [handle_fallback_result]
    · rw [handle_fallback_count]

/-- Witness for C7's amended theorem: an insufficient grounded answer
at a concrete run is rerouted to the fallback answer. -/
theorem insufficiency_marker_set_witness :
    (ask genInsuff docs1 emptyState "pool".toList "c1".toList 5).1.answer =
      _generate_fallback_answer genInsuff ∧
    (ask genInsuff docs1 emptyState "pool".toList "c1".toList 5).1.sources
      = [] ∧
    (ask genInsuff docs1 emptyState "pool".toList "c1".toList 5).2.2 = 2 :=
  insufficiency_marker_set.2 genInsuff docs1 emptyState "pool".toList
    "c1".toList 5 "unfortunately no".toList rfl (by decide) rfl (by decide)

/-- C4: a cache hit on a history-free conversation returns the cached
AnswerResult with zero generation-client calls; an ask on a
conversation with prior turns leaves the cache unchanged and its
result, conversation effects and call count do not depend on the cache
contents (no read, no write). -/
theorem ask_cache_read_write_semantics (gen : GenClient)
    (docs : List ContentItem) (st0 : RAGState) (q cid : List Char)
    (m : Nat) :
    (∀ r : AnswerResult, alookup (normalizeKey q) st0.cache = some r →
      histD cid st0 = [] →
      (ask gen docs st0 q cid m).1 = r ∧
      (ask gen docs st0 q cid m).2.2 = 0) ∧
    (histD cid st0 ≠ [] →
      (ask gen docs st0 q cid m).2.1.cache = st0.cache ∧
      ∀ c2 : List (List Char × AnswerResult),
        (ask gen docs ⟨c2, st0.conversations⟩ q cid m).1 =
          (ask gen docs st0 q cid m).1 ∧
        (ask gen docs ⟨c2, st0.conversations⟩ q cid m).2.1.conversations =
          (ask gen docs st0 q cid m).2.1.conversations ∧
        (ask gen docs ⟨c2, st0.conversations⟩ q cid m).2.2 =
          (ask gen docs st0 q cid m).2.2) := by
  constructor
  · intro r hr hh
    rw [ask_cache_hit gen docs st0 q cid m r hr hh]
    exact ⟨rfl, rfl⟩
  · intro hh
    constructor
    · rw [ask_of_prior_turns gen docs st0 q cid m hh]
      by_cases hS : (search_content docs q m).isEmpty = true
      · rw [if_pos hS]
        exact handle_fallback_cache_of_prior gen st0 q cid _ hh
      · rw [if_neg hS]
        by_cases hI : isInsufficient (_generate_answer gen) = true
        · rw [if_pos hI]
          show (_handle_fallback gen st0 q cid
              (some (normalizeKey q))).2.1.cache = st0.cache
          exact handle_fallback_cache_of_prior gen st0 q cid
            (some (normalizeKey q)) hh
        · rw [if_neg hI]
    · intro c2
      have hh' : histD cid (⟨c2, st0.conversations⟩ : RAGState) ≠ [] := hh
      rw [ask_of_prior_turns gen docs st0 q cid m hh,
        ask_of_prior_turns gen docs ⟨c2, st0.conversations⟩ q cid m hh']
      by_cases hS : (search_content docs q m).isEmpty = true
      · rw [if_pos hS, if_pos hS]
        refine ⟨?_, ?_, ?_⟩
        · rw [handle_fallback_result, handle_fallback_result]
        · rw [handle_fallback_conversations, handle_fallback_conversations]
          rfl
        · rw [handle_fallback_count, handle_fallback_count]
      · rw [if_neg hS, if_neg hS]
        by_cases hI : isInsufficient (_generate_answer gen) = true
        · rw [if_pos hI, if_pos hI]
          refine ⟨?_, ?_, ?_⟩
          · show (_handle_fallback gen ⟨c2, st0.conversations⟩ q cid
                (some (normalizeKey q))).1 =
              (_handle_fallback gen st0 q cid (some (normalizeKey q))).1
            rw [handle_fallback_result, handle_fallback_result]
          · show (_handle_fallback gen ⟨c2, st0.conversations⟩ q cid
                (some (normalizeKey q))).2.1.conversations =
              (_handle_fallback gen st0 q cid
                (some (normalizeKey q))).2.1.conversations
            rw [handle_fallback_conversations, handle_fallback_conversations]
            rfl
          · show (_handle_fallback gen ⟨c2, st0.conversations⟩ q cid
                (some (normalizeKey q))).2.2 + 1 =
              (_handle_fallback gen st0 q cid
                (some (normalizeKey q))).2.2 + 1
            rw [handle_fallback_count, handle_fallback_count]
        · rw [if_neg hI, if_neg hI]
          exact ⟨rfl, rfl, rfl⟩

/-- Witness for C4 at concrete states: a cache hit returns the cached
result with zero generation calls, and an ask with prior turns leaves
the cache untouched. -/
theorem ask_cache_read_write_semantics_witness :
    ((ask genBenign docs1 stCached "pool".toList "c1".toList 5).1 = rOrig ∧
     (ask genBenign docs1 stCached "pool".toList "c1".toList 5).2.2 = 0) ∧
    (ask genBenign docs1 stPrior "pool".toList "c1".toList 5).2.1.cache =
      stPrior.cache :=
  ⟨(ask_cache_read_write_semantics genBenign docs1 stCached "pool".toList
      "c1".toList 5).1 rOrig (by decide) (by decide),
   ((ask_cache_read_write_semantics genBenign docs1 stPrior "pool".toList
      "c1".toList 5).2 (by decide)).1⟩

/-- C10 counterexample: a cache hit under a previously unseen
conversation id returns the stored result verbatim (with the original
conversation id) but the conversation store is not left unchanged — an
empty history entry is registered for the new id. -/
theorem cache_hit_creates_empty_session :
    (ask genBenign docs1 stCached "pool".toList "c9".toList 5).1 = rOrig ∧
    rOrig.conversation_id ≠ "c9".toList ∧
    (ask genBenign docs1 stCached "pool".toList
        "c9".toList 5).2.1.conversations ≠ stCached.conversations :=
  ⟨by decide, by decide, by decide⟩

/-- C10 (amended): on a cache hit the stored AnswerResult is returned
exactly as cached (its conversation_id included, even when it differs
from the current call's id), no generation call happens, the cache is
unchanged, and every conversation's history is unchanged — though an
empty history entry may be registered for a previously unseen id. -/
theorem cache_hit_frame (gen : GenClient) (docs : List ContentItem)
    (st0 : RAGState) (q cid : List Char) (m : Nat) (r : AnswerResult)
    (hr : alookup (normalizeKey q) st0.cache = some r)
    (hh : histD cid st0 = []) :
    (ask gen docs st0 q cid m).1 = r ∧
    (ask gen docs st0 q cid m).2.1.cache = st0.cache ∧
    (∀ c : List Char,
      histD c (ask gen docs st0 q cid m).2.1 = histD c st0) ∧
    (ask gen docs st0 q cid m).2.2 = 0 := by
  rw [ask_cache_hit gen docs st0 q cid m r hr hh]
  exact ⟨rfl, initConv_cache cid st0,
    fun c => histD_initConv cid c st0, rfl⟩

/-- Witness for C10's amended theorem: the cached result created under
id "orig" is returned verbatim to a call under id "c9", and every
history reads unchanged. -/
theorem cache_hit_frame_witness :
    (ask genBenign docs1 stCached "pool".toList "c9".toList 5).1 = rOrig ∧
    (ask genBenign docs1 stCached "pool".toList "c9".toList 5).2.1.cache =
      stCached.cache ∧
    (∀ c : List Char,
      histD c (ask genBenign docs1 stCached "pool".toList
        "c9".toList 5).2.1 = histD c stCached) ∧
    (ask genBenign docs1 stCached "pool".toList "c9".toList 5).2.2 = 0 :=
  cache_hit_frame genBenign docs1 stCached "pool".toList "c9".toList 5
    rOrig (by decide) (by decide)

end Rocbot

-- evaluation checks of the orchestrator model on concrete runs
example : Rocbot.search_content Rocbot.docs1 "pool".toList 5 =
    [Rocbot.itemP] := by decide
example :
    (Rocbot.ask Rocbot.genGroundedBoom Rocbot.docs1 Rocbot.emptyState
      "pool".toList "c1".toList 5).1.answer =
    Rocbot.errWrapGrounded "boom".toList := by decide
example :
    (Rocbot.ask_stream Rocbot.genGroundedBoom Rocbot.gsFail Rocbot.docs1
      Rocbot.emptyState "pool".toList "c1".toList 5).1 =
    [Rocbot.Ev.sources [⟨"Pool Info".toList, "u".toList, "city".toList,
        "general".toList⟩],
     Rocbot.Ev.token "Hello ".toList,
     Rocbot.Ev.token "Error: boom".toList,
     Rocbot.Ev.done none "c1".toList] := by decide

-- evaluation checks of the text primitives against Python semantics
example : Rocbot.countOcc "po".toList "popopo".toList = 3 := by decide
example : Rocbot.countOcc "oo".toList "ooo".toList = 1 := by decide
example : Rocbot.countOcc "".toList "abc".toList = 4 := by decide
example : Rocbot.containsSub "bc".toList "abcd".toList = true := by decide
example : Rocbot.splitWs "  who is  mayor ".toList =
    ["who".toList, "is".toList, "mayor".toList] := by decide
example : Rocbot.extractKeywords "Who is the mayor?".toList =
    ["mayor".toList] := by decide
example : Rocbot.extractKeywords "who is the".toList =
    ["who is the".toList] := by decide
